import Mathlib

set_option maxRecDepth 100000

/-!
Verification of the shape-algebra / template-synthesis engine
(`shapgebra.py`, `shape2template.py`) against its specification.

The RDF store (rdflib) is the out-of-scope collaborator of the spec (§6):
we embed exactly the operations the code uses — triple lookup (`value`,
`objects`, `predicates`), concise bounded description (`cbd`), `all_nodes`,
and RDF-collection decoding — over a graph represented as a finite list of
triples.  Machine-generated placeholder names (`gensym`, which uses a random
`token_hex(8)` suffix in the source) are determinized by a counter; only
global freshness of the suffix matters and both schemes provide it.
-/

/-- An RDF term: named node, blank node, literal, or a generated
placeholder (`gensym` output, `urn:___mark___#<prefix>_<suffix>`).
The `mark` constructor determinizes the random suffix by a counter. -/
inductive RNode where
  | uri (s : String)
  | bnode (s : String)
  | lit (s : String)
  | mark (pfx : String) (k : Nat)
deriving DecidableEq

structure Triple where
  s : RNode
  p : RNode
  o : RNode
deriving DecidableEq

/-- A graph is a finite list of triples (rdflib stores a set; list order
determinizes rdflib's implementation-defined iteration order). -/
abbrev RGraph := List Triple

def shNS : String := "http://www.w3.org/ns/shacl#"
def rdfNS : String := "http://www.w3.org/1999/02/22-rdf-syntax-ns#"
def MARKns : String := "urn:___mark___#"

def rdfType : RNode := .uri (rdfNS ++ "type")
def rdfFirst : RNode := .uri (rdfNS ++ "first")
def rdfRest : RNode := .uri (rdfNS ++ "rest")
def rdfNil : RNode := .uri (rdfNS ++ "nil")

def shNodeShape : RNode := .uri (shNS ++ "NodeShape")
def shPropertyShape : RNode := .uri (shNS ++ "PropertyShape")
def shPath : RNode := .uri (shNS ++ "path")
def shClass : RNode := .uri (shNS ++ "class")
def shNode : RNode := .uri (shNS ++ "node")
def shProperty : RNode := .uri (shNS ++ "property")
def shTargetClass : RNode := .uri (shNS ++ "targetClass")
def shTargetNode : RNode := .uri (shNS ++ "targetNode")
def shTargetObjectsOf : RNode := .uri (shNS ++ "targetObjectsOf")
def shTargetSubjectsOf : RNode := .uri (shNS ++ "targetSubjectsOf")
def shOr : RNode := .uri (shNS ++ "or")
def shNot : RNode := .uri (shNS ++ "not")
def shClosed : RNode := .uri (shNS ++ "closed")
def shInversePath : RNode := .uri (shNS ++ "inversePath")
def shZeroOrOnePath : RNode := .uri (shNS ++ "zeroOrOnePath")
def shOneOrMorePath : RNode := .uri (shNS ++ "oneOrMorePath")
def shZeroOrMorePath : RNode := .uri (shNS ++ "zeroOrMorePath")
def shAlternativePath : RNode := .uri (shNS ++ "alternativePath")
def shMinCount : RNode := .uri (shNS ++ "minCount")
def shMaxCount : RNode := .uri (shNS ++ "maxCount")
def shHasValue : RNode := .uri (shNS ++ "hasValue")
def shDatatype : RNode := .uri (shNS ++ "datatype")
def shNodeKind : RNode := .uri (shNS ++ "nodeKind")
def shQualifiedValueShape : RNode := .uri (shNS ++ "qualifiedValueShape")
def shQualifiedMinCount : RNode := .uri (shNS ++ "qualifiedMinCount")
def shQualifiedMaxCount : RNode := .uri (shNS ++ "qualifiedMaxCount")

/-- A decimal digit as a character. -/
def digitChar (n : Nat) : Char :=
  match n with
  | 0 => '0' | 1 => '1' | 2 => '2' | 3 => '3' | 4 => '4'
  | 5 => '5' | 6 => '6' | 7 => '7' | 8 => '8' | _ => '9'

/-- Decimal digits of `n`, with explicit fuel so the definition is
structural (and therefore reduces inside the kernel). -/
def natDigits : Nat → Nat → List Char
  | 0, _ => []
  | f + 1, n => if n < 10 then [digitChar n] else natDigits f (n / 10) ++ [digitChar (n % 10)]

def natStr (n : Nat) : String := ⟨natDigits (n + 1) n⟩

/-- `str(node)` as used by the Python code in f-strings: the bare
identifier / lexical form, no brackets. -/
def nodeStr : RNode → String
  | .uri s => s
  | .bnode s => s
  | .lit s => s
  | .mark pfx k => MARKns ++ pfx ++ "_" ++ natStr k

/-- Python truthiness of an rdflib term (`URIRef`/`BNode`/`Literal` are
`str` subclasses: falsy iff empty; generated placeholders are never empty). -/
def RNode.truthy : RNode → Bool
  | .uri s => s ≠ ""
  | .bnode s => s ≠ ""
  | .lit s => s ≠ ""
  | .mark _ _ => true

def RNode.isBlank : RNode → Bool
  | .bnode _ => true
  | _ => false

/-- `isinstance(x, (URIRef, BNode))`. -/
def RNode.isRes : RNode → Bool
  | .uri _ => true
  | .bnode _ => true
  | _ => false

def RNode.isUri : RNode → Bool
  | .uri _ => true
  | _ => false

/-- `graph.objects(subject=s, predicate=p)`. -/
def objectsOf (g : RGraph) (s p : RNode) : List RNode :=
  (g.filter (fun t => decide (t.s = s ∧ t.p = p))).map (·.o)

/-- `graph.value(s, p)`: the first matching object, or `None`. -/
def valueOf (g : RGraph) (s p : RNode) : Option RNode :=
  (objectsOf g s p).head?

/-- `p in graph.predicates(subject=s)` / `(s, p, None) in graph`. -/
def hasPred (g : RGraph) (s p : RNode) : Bool :=
  g.any (fun t => decide (t.s = s ∧ t.p = p))

/-- One-step-at-a-time closure of the subject set of a concise bounded
description: add every blank node that is the object of a triple whose
subject is already collected.  `g.length` rounds reach the fixpoint. -/
def cbdExpand (g : RGraph) : Nat → List RNode → List RNode
  | 0, subs => subs
  | n + 1, subs =>
    let more := ((g.filter (fun t =>
      subs.contains t.s && t.o.isBlank && !subs.contains t.o)).map (·.o)).dedup
    cbdExpand g n (subs ++ more)

/-- `graph.cbd(node)`: all statements transitively reachable from `node`
through blank-node objects (rdflib `Graph.cbd`, reification aside). -/
def cbd (g : RGraph) (node : RNode) : RGraph :=
  let subs := cbdExpand g g.length [node]
  g.filter (fun t => subs.contains t.s)

/-- Keep the first occurrence of each element (determinizes a Python
`set` built by iterating a list). -/
def dedupKeepFirst {α : Type} [DecidableEq α] (seen : List α) : List α → List α
  | [] => []
  | x :: xs =>
    if seen.contains x then dedupKeepFirst seen xs
    else x :: dedupKeepFirst (x :: seen) xs

/-- `graph.all_nodes()`: the set of subjects and objects. -/
def allNodes (g : RGraph) : List RNode :=
  dedupKeepFirst [] (g.map (·.s) ++ g.map (·.o))

/-- `list(Collection(g, node))`: decode an RDF collection (`rdf:first` /
`rdf:rest` chain ended by `rdf:nil`).  Fuel bounds the walk; a cyclic
`rdf:rest` chain would not terminate in the source either. -/
def collectionItems (g : RGraph) : Nat → RNode → List RNode
  | 0, _ => []
  | n + 1, node =>
    if node = rdfNil then []
    else
      match valueOf g node rdfFirst with
      | none => []
      | some f =>
        match valueOf g node rdfRest with
        | none => [f]
        | some r => f :: collectionItems g n r

/-! ## `shapgebra.py`: `ShapeGraph` / `SHACLNode` dependency analysis -/

/-- `str(node)` spliced into the `ASK` query of `SHACLNode.dependencies`:
the f-string `<{node}>` turns any term into a named-node reference. -/
def RNode.asUri : RNode → RNode
  | .uri s => .uri s
  | .bnode s => .uri s
  | .lit s => .uri s
  | .mark pfx k => .uri (MARKns ++ pfx ++ "_" ++ natStr k)

/-- The `ASK` body of `SHACLNode.dependencies`: node is typed as a node
or property shape, or is the object of an `sh:node` / `sh:property` edge. -/
def isShapeNode (g : RGraph) (n : RNode) : Bool :=
  g.any (fun t => decide (t = ⟨n, rdfType, shNodeShape⟩)) ||
  g.any (fun t => decide (t = ⟨n, rdfType, shPropertyShape⟩)) ||
  g.any (fun t => decide (t.p = shNode ∧ t.o = n)) ||
  g.any (fun t => decide (t.p = shProperty ∧ t.o = n))

def askShape (g : RGraph) (n : RNode) : Bool :=
  isShapeNode g n.asUri

/-- The non-recursive part of `SHACLNode.dependencies`: shape-bearing
nodes in the CBD of the shape. -/
def depsNonrec (g : RGraph) (name : RNode) : List RNode :=
  (allNodes (cbd g name)).filter (fun n => askShape g n)

/-- The `while len(stack) > 0` worklist of `SHACLNode.dependencies`
(`stack = deque(found)`, pop from the right, skip members of `found`).
The fuel equals the initial stack length, which is exact because every
popped element is already in `found` and the loop never grows the stack. -/
def depsLoop (g : RGraph) : Nat → List RNode → List RNode → List RNode
  | 0, _, found => found
  | _ + 1, [], found => found
  | n + 1, node :: rest, found =>
    if found.contains node then depsLoop g n rest found
    else depsLoop g n ((allNodes (cbd g node)).reverse ++ rest) (found ++ [node])

/-- `SHACLNode.dependencies(graph, recursive)`. -/
def dependencies (g : RGraph) (name : RNode) (recursive : Bool) : List RNode :=
  let found := depsNonrec g name
  if recursive then depsLoop g found.length found.reverse found else found

/-- The identifiers indexed by `ShapeGraph.__init__` (subjects typed as
node/property shapes, then objects of `sh:node` / `sh:property` edges). -/
def shapeGraphNames (g : RGraph) : List RNode :=
  (g.filter (fun t => decide (t.p = rdfType ∧ t.o = shNodeShape))).map (·.s)
    ++ (g.filter (fun t => decide (t.p = rdfType ∧ t.o = shPropertyShape))).map (·.s)
    ++ (g.filter (fun t => decide (t.p = shNode))).map (·.o)
    ++ (g.filter (fun t => decide (t.p = shProperty))).map (·.o)

/-- `ShapeGraph.dependents(node, recursive)`: every indexed shape other
than `node` whose dependency set contains `node` (a Python set; first
occurrences kept). -/
def dependents (g : RGraph) (node : RNode) (recursive : Bool) : List RNode :=
  dedupKeepFirst []
    ((shapeGraphNames g).filter
      (fun other => other ≠ node && (dependencies g other recursive).contains node))


/-! ## Basic list facts -/

theorem contains_iff_mem {α : Type} [DecidableEq α] (l : List α) (a : α) :
    l.contains a = true ↔ a ∈ l := by
  simp

theorem mem_dedupKeepFirst {α : Type} [DecidableEq α] (seen l : List α) (a : α) :
    a ∈ dedupKeepFirst seen l ↔ a ∈ l ∧ a ∉ seen := by
  induction l generalizing seen with
  | nil => simp [dedupKeepFirst]
  | cons x xs ih =>
    simp only [dedupKeepFirst]
    by_cases hx : x ∈ seen
    · rw [if_pos (by simpa using hx), ih]
      constructor
      · rintro ⟨h1, h2⟩
        exact ⟨.tail _ h1, h2⟩
      · rintro ⟨h1, h2⟩
        cases h1 with
        | head => exact absurd hx h2
        | tail _ h => exact ⟨h, h2⟩
    · rw [if_neg (by simpa using hx)]
      simp only [List.mem_cons, ih, List.mem_cons]
      constructor
      · rintro (rfl | ⟨h1, h2⟩)
        · exact ⟨Or.inl rfl, hx⟩
        · exact ⟨Or.inr h1, fun hs => h2 (Or.inr hs)⟩
      · rintro ⟨h1 | h1, h2⟩
        · exact Or.inl h1
        · by_cases hax : a = x
          · exact Or.inl hax
          · exact Or.inr ⟨h1, by simp [hax, h2]⟩

theorem two_le_length_of_mem {l : List RNode} {a b : RNode}
    (ha : a ∈ l) (hb : b ∈ l) (hne : a ≠ b) : 2 ≤ l.length := by
  cases l with
  | nil => cases ha
  | cons x xs =>
    cases xs with
    | cons y ys => simp [Nat.succ_le_succ, Nat.succ_le_succ_iff]
    | nil =>
      simp only [List.mem_singleton] at ha hb
      exact absurd (ha.trans hb.symm) hne

/-! ## C3: the `recursive` worklist of `SHACLNode.dependencies` is dead code -/

theorem depsLoop_noop (g : RGraph) :
    ∀ (fuel : Nat) (stack found : List RNode),
      (∀ x ∈ stack, x ∈ found) → depsLoop g fuel stack found = found := by
  intro fuel
  induction fuel with
  | zero => intro stack found _; rfl
  | succ n ih =>
    intro stack found hsub
    cases stack with
    | nil => rfl
    | cons node rest =>
      have hnode : found.contains node = true :=
        (contains_iff_mem _ _).mpr (hsub node (.head _))
      simp only [depsLoop, hnode, if_pos rfl]
      exact ih rest found (fun x hx => hsub x (.tail _ hx))

theorem dependencies_recursive_eq (g : RGraph) (s : RNode) :
    dependencies g s true = dependencies g s false := by
  have h1 : dependencies g s false = depsNonrec g s := rfl
  have h2 : dependencies g s true =
      depsLoop g (depsNonrec g s).length (depsNonrec g s).reverse (depsNonrec g s) := rfl
  rw [h1, h2]
  exact depsLoop_noop g _ _ _ (fun x hx => List.mem_reverse.mp hx)

def exNS : String := "urn:ex#"
def nA : RNode := .uri (exNS ++ "A")
def nB : RNode := .uri (exNS ++ "B")
def nC : RNode := .uri (exNS ++ "C")

/-- A three-level chain of node shapes: `A` structurally references `B`,
`B` structurally references `C`. -/
def gChain : RGraph :=
  [⟨nA, rdfType, shNodeShape⟩, ⟨nA, shNode, nB⟩,
   ⟨nB, rdfType, shNodeShape⟩, ⟨nB, shNode, nC⟩,
   ⟨nC, rdfType, shNodeShape⟩]

/-- C3: `dependencies(s, recursive=True)` does NOT compute the
breadth-first fixpoint.  The worklist is seeded with `found` and every
popped element is skipped by the `if node in found` guard, so the
recursive result always equals the non-recursive one; on the chain
`A → B → C` the shape `C` (a dependency of the dependency `B`) is
missing from `dependencies(A, recursive=True)`. -/
theorem c3_recursive_dependencies_noop :
    (∀ (g : RGraph) (s : RNode), dependencies g s true = dependencies g s false) ∧
    nB ∈ dependencies gChain nA true ∧
    nC ∈ dependencies gChain nB false ∧
    nC ∉ dependencies gChain nA true :=
  ⟨dependencies_recursive_eq, by decide, by decide, by decide⟩

/-! ## C7: dependency/dependent symmetry -/

theorem mem_dependents_iff (g : RGraph) (a b : RNode) :
    a ∈ dependents g b true ↔
      a ∈ shapeGraphNames g ∧ a ≠ b ∧ b ∈ dependencies g a true := by
  simp only [dependents, mem_dedupKeepFirst, List.mem_filter, List.not_mem_nil,
    not_false_iff, and_true, Bool.and_eq_true, decide_eq_true_eq, contains_iff_mem,
    and_assoc]

/-- C7 (amended): for all **distinct** shapes `a`, `b` indexed in a
`ShapeGraph`, `b ∈ dependencies(a, recursive=True)` iff
`a ∈ dependents(b, recursive=True)`.  (For `a = b` the equivalence fails:
`dependencies` includes the shape itself, `dependents` excludes it —
see the counterexample.) -/
theorem c7_dependency_symmetry (g : RGraph) (a b : RNode)
    (ha : a ∈ shapeGraphNames g) (_hb : b ∈ shapeGraphNames g) (hne : a ≠ b) :
    b ∈ dependencies g a true ↔ a ∈ dependents g b true := by
  rw [mem_dependents_iff]
  exact ⟨fun h => ⟨ha, hne, h⟩, fun h => h.2.2⟩

/-- A single typed node shape: it is a member of its own `dependencies`
but (by the `other._name == node` guard) never of its own `dependents`,
refuting the claimed equivalence at `a = b`. -/
def g7 : RGraph := [⟨nA, rdfType, shNodeShape⟩]

/-- C7 counterexample: for the indexed shape `A` of `g7`,
`A ∈ dependencies(A, recursive=True)` yet `A ∉ dependents(A, recursive=True)`,
so the claimed unrestricted equivalence is false. -/
theorem c7_dependency_symmetry_cex :
    nA ∈ shapeGraphNames g7 ∧
    nA ∈ dependencies g7 nA true ∧
    nA ∉ dependents g7 nA true := by
  refine ⟨by decide, by decide, by decide⟩

/-- Witness for C7: a two-shape document where `A sh:node B`; the theorem
transports `B ∈ dependencies(A)` to `A ∈ dependents(B)`. -/
def gW7 : RGraph :=
  [⟨nA, rdfType, shNodeShape⟩, ⟨nA, shNode, nB⟩, ⟨nB, rdfType, shNodeShape⟩]

theorem c7_dependency_symmetry_witness :
    nA ∈ dependents gW7 nB true :=
  (c7_dependency_symmetry gW7 nA nB (by decide) (by decide) (by decide)).mp
    (by decide)

/-! ## Failure model

Python exceptions are modelled explicitly: `err .assertFail` is an
`AssertionError`, `err .indexOut` an `IndexError`, `err .attrErr` a
`TypeError`/`AttributeError`; `spin` models non-termination (unbounded
recursion), reached only when fuel runs out. -/

inductive Err where
  | assertFail
  | indexOut
  | attrErr
deriving DecidableEq

inductive Res (α : Type) where
  | ok (a : α)
  | err (e : Err)
  | spin
deriving DecidableEq

def Res.bind {α β : Type} : Res α → (α → Res β) → Res β
  | .ok a, f => f a
  | .err e, _ => .err e
  | .spin, _ => .spin

instance : Monad Res where
  pure := Res.ok
  bind := Res.bind

theorem Res.bind_eq_ok {α β : Type} {x : Res α} {f : α → Res β} {b : β}
    (h : Res.bind x f = .ok b) : ∃ a, x = .ok a ∧ f a = .ok b := by
  cases x with
  | ok a => exact ⟨a, rfl, h⟩
  | err e => cases h
  | spin => cases h

/-! ## `shape2template.py`: `Context.shapes` and `Context.root_shapes` -/

/-- `Context.shapes`: the SPARQL `SELECT ?shape` with a `UNION` of the
two type patterns, returning one row per matching triple (bag semantics:
a node typed as both shapes yields two rows); each row is asserted to be
a `URIRef`. -/
def ctxShapes (g : RGraph) : Res (List RNode) :=
  let rows := (g.filter (fun t => decide (t.p = rdfType ∧ t.o = shNodeShape))).map (·.s)
    ++ (g.filter (fun t => decide (t.p = rdfType ∧ t.o = shPropertyShape))).map (·.s)
  if rows.all (fun n => n.isUri) then .ok rows else .err .assertFail

/-- `Context.root_shapes`: shapes whose list of dependents
(`[other for other in shapes if s in cbd(other).all_nodes()]`) has
length exactly 1. -/
def rootShapes (g : RGraph) : Res (List RNode) :=
  (ctxShapes g).bind fun shapes =>
    .ok (shapes.filter (fun s =>
      (shapes.filter (fun other => (allNodes (cbd g other)).contains s)).length == 1))

theorem subset_cbdExpand (g : RGraph) :
    ∀ (n : Nat) (subs : List RNode), subs ⊆ cbdExpand g n subs := by
  intro n
  induction n with
  | zero => intro subs; exact fun _ h => h
  | succ m ih =>
    intro subs
    exact fun x hx => ih _ (List.mem_append_left _ hx)

theorem mem_cbd_of_triple {g : RGraph} {t : Triple} {x : RNode}
    (ht : t ∈ g) (hs : t.s = x) : t ∈ cbd g x := by
  unfold cbd
  refine List.mem_filter.mpr ⟨ht, ?_⟩
  rw [contains_iff_mem, hs]
  exact subset_cbdExpand g g.length [x] (List.mem_singleton.mpr rfl)

theorem self_mem_allNodes_cbd {g : RGraph} {t : Triple} {s : RNode}
    (ht : t ∈ g) (hs : t.s = s) : s ∈ allNodes (cbd g s) := by
  unfold allNodes
  rw [mem_dedupKeepFirst]
  refine ⟨List.mem_append_left _ ?_, List.not_mem_nil s⟩
  exact List.mem_map.mpr ⟨t, mem_cbd_of_triple ht hs, hs⟩

theorem mem_ctxShapes_exists_triple {g : RGraph} {l : List RNode} {s : RNode}
    (hl : ctxShapes g = .ok l) (hs : s ∈ l) : ∃ t ∈ g, t.s = s := by
  simp only [ctxShapes] at hl
  split at hl
  · injection hl with h
    subst h
    rcases List.mem_append.mp hs with h | h <;>
    · rcases List.mem_map.mp h with ⟨t, htl, hts⟩
      exact ⟨t, (List.mem_filter.mp htl).1, hts⟩
  · cases hl

theorem rootShapes_eq {g : RGraph} {l : List RNode} (hl : ctxShapes g = .ok l) :
    rootShapes g = .ok (l.filter (fun s =>
      (l.filter (fun other => (allNodes (cbd g other)).contains s)).length == 1)) := by
  unfold rootShapes
  rw [hl]
  rfl

/-- C4 (amended): (a) a shape referenced inside another shape's CBD is
never classified as root; (b) a shape with no incoming structural
reference from any other shape is classified as root **provided** it
occurs exactly once in the shape index — a shape declared as both a node
shape and a property shape occurs twice (one row per `UNION` branch) and
is then never classified as root, even without incoming references. -/
theorem c4_root_classification (g : RGraph) (s : RNode) (l r : List RNode)
    (hl : ctxShapes g = .ok l) (hr : rootShapes g = .ok r) :
    (s ∈ l → (∃ other ∈ l, other ≠ s ∧ s ∈ allNodes (cbd g other)) → s ∉ r) ∧
    (l.count s = 1 →
      (∀ other ∈ l, other ≠ s → s ∉ allNodes (cbd g other)) → s ∈ r) := by
  have hre := rootShapes_eq hl
  rw [hr] at hre
  injection hre with hre
  subst hre
  constructor
  · rintro hsl ⟨o, hol, hone, hoc⟩ hmem
    have hcond := (List.mem_filter.mp hmem).2
    have hselft : ∃ t ∈ g, t.s = s := mem_ctxShapes_exists_triple hl hsl
    rcases hselft with ⟨t, htg, hts⟩
    have hself : s ∈ allNodes (cbd g s) := self_mem_allNodes_cbd htg hts
    have hmo : o ∈ l.filter (fun other => (allNodes (cbd g other)).contains s) :=
      List.mem_filter.mpr ⟨hol, (contains_iff_mem _ _).mpr hoc⟩
    have hms : s ∈ l.filter (fun other => (allNodes (cbd g other)).contains s) :=
      List.mem_filter.mpr ⟨hsl, (contains_iff_mem _ _).mpr hself⟩
    have h2 := two_le_length_of_mem hmo hms hone
    rw [Nat.beq_eq_true_eq] at hcond
    omega
  · intro hcount hnone
    have hsl : s ∈ l := List.count_pos_iff.mp (by omega)
    have hselft : ∃ t ∈ g, t.s = s := mem_ctxShapes_exists_triple hl hsl
    rcases hselft with ⟨t, htg, hts⟩
    refine List.mem_filter.mpr ⟨hsl, ?_⟩
    have hfe : l.filter (fun other => (allNodes (cbd g other)).contains s) =
        l.filter (fun other => other == s) := by
      apply List.filter_congr
      intro x hx
      by_cases hxs : x = s
      · subst hxs
        simp [contains_iff_mem, self_mem_allNodes_cbd htg hts]
      · simp [hxs, contains_iff_mem, hnone x hx hxs]
    rw [Nat.beq_eq_true_eq, hfe, ← List.countP_eq_length_filter]
    exact hcount

def nX : RNode := .uri (exNS ++ "X")

/-- A single node declared as **both** a node shape and a property shape:
the `UNION` query indexes it twice, so its dependents list has length 2
and it is not classified as root although nothing references it. -/
def gBoth : RGraph := [⟨nX, rdfType, shNodeShape⟩, ⟨nX, rdfType, shPropertyShape⟩]

/-- C4 counterexample: in `gBoth` the shape `X` has no incoming
structural reference from any other shape (it is the only shape), yet
`root_shapes` is empty — refuting "a shape with no incoming structural
reference from any other shape is always classified as root". -/
theorem c4_root_classification_cex :
    ctxShapes gBoth = .ok [nX, nX] ∧
    (∀ other ∈ [nX, nX], other ≠ nX → nX ∉ allNodes (cbd gBoth other)) ∧
    rootShapes gBoth = .ok [] := by
  refine ⟨by decide, by decide, by decide⟩

def g4 : RGraph := [⟨nA, rdfType, shNodeShape⟩]

def gRef : RGraph :=
  [⟨nA, rdfType, shNodeShape⟩, ⟨nB, rdfType, shNodeShape⟩, ⟨nB, shNode, nA⟩]

theorem c4_root_classification_witness :
    nA ∉ ([nB] : List RNode) ∧ nA ∈ ([nA] : List RNode) :=
  ⟨(c4_root_classification gRef nA [nA, nB] [nB] (by decide) (by decide)).1
      (by decide) ⟨nB, by decide, by decide, by decide⟩,
   (c4_root_classification g4 nA [nA] [nA] (by decide) (by decide)).2
      (by decide) (by decide)⟩

/-! ## `shapgebra.py`: `Path` -/

/-- `if graph.value(s, p):` — Python truthiness of the looked-up term. -/
def truthyVal (x : Option RNode) : Option RNode :=
  match x with
  | some v => if v.truthy then some v else none
  | none => none

/-- The `Path` record of `shapgebra.py`.  `alternativePathRaw` models the
dynamic content of the Python `alternativePath` attribute: `Path.parse`
assigns it the RAW head node of the alternative list (`graph.value(path,
SH.alternativePath)`), not a list of parsed paths, contradicting the
attribute's own `List["Path"]` annotation; `none` models the initial `[]`. -/
inductive PathR where
  | mk (name : RNode) (predicatePath : Option RNode) (sequencePath : List PathR)
      (alternativePathRaw : Option RNode) (inversePath : Option PathR)
      (zeroOrOnePath : Option PathR) (oneOrMorePath : Option PathR)
      (zeroOrMorePath : Option PathR)

/- `Path.parse` (and, mutually, the element-wise parse + `drop_none` of a
sequence list).  Fuel decreases on every recursive call; the source has no
cycle detection and recurses unboundedly on cyclic path structure (`spin`). -/
mutual

def PathR.parse : Nat → RGraph → Option RNode → Res (Option PathR)
  | _, _, none => .ok none
  | 0, _, some _ => .spin
  | fuel + 1, g, some node =>
    let pathlist := collectionItems g (g.length + 1) node
    match truthyVal (valueOf g node shInversePath) with
    | some iv =>
      Res.bind (PathR.parse fuel g (some iv)) fun c =>
        .ok (some (.mk node none [] none c none none none))
    | none =>
    match truthyVal (valueOf g node shZeroOrOnePath) with
    | some zv =>
      Res.bind (PathR.parse fuel g (some zv)) fun c =>
        .ok (some (.mk node none [] none none c none none))
    | none =>
    match truthyVal (valueOf g node shOneOrMorePath) with
    | some ov =>
      Res.bind (PathR.parse fuel g (some ov)) fun c =>
        .ok (some (.mk node none [] none none none c none))
    | none =>
    match truthyVal (valueOf g node shZeroOrMorePath) with
    | some zv =>
      Res.bind (PathR.parse fuel g (some zv)) fun c =>
        .ok (some (.mk node none [] none none none none c))
    | none =>
    if pathlist.length > 0 then
      Res.bind (PathR.parseMany fuel g pathlist) fun cs =>
        .ok (some (.mk node none cs none none none none none))
    else
      match truthyVal (valueOf g node shAlternativePath) with
      | some av => .ok (some (.mk node none [] (some av) none none none none))
      | none =>
        if node.isUri then .ok (some (.mk node (some node) [] none none none none none))
        else .err .assertFail

def PathR.parseMany : Nat → RGraph → List RNode → Res (List PathR)
  | _, _, [] => .ok []
  | 0, _, _ :: _ => .spin
  | fuel + 1, g, x :: xs =>
    Res.bind (PathR.parse fuel g (some x)) fun px =>
      Res.bind (PathR.parseMany fuel g xs) fun pxs =>
        .ok (match px with | none => pxs | some p => p :: pxs)

end

def listTruthy (l : List PathR) : Bool := !l.isEmpty

/-- Python `"sep".join`. -/
def joinSep (sep : String) : List String → String
  | [] => ""
  | [x] => x
  | x :: xs => x ++ sep ++ joinSep sep xs

/- `Path.rollup`.  The `alternativePath` branch iterates the attribute's
value; the parser stored a raw identifier (a Python `str` subclass), so
iteration yields characters and `p.rollup()` raises `AttributeError`
(modelled as `err .attrErr`).  An empty stored identifier is falsy and
falls through, like the initial `[]`. -/
mutual

def PathR.rollup : PathR → Res String
  | .mk _ (some p) _ _ _ _ _ _ => .ok (nodeStr p)
  | .mk _ none sq alt inv z1 om zm =>
    if listTruthy sq then
      Res.bind (PathR.rollupMany sq) fun parts => .ok (joinSep "/" parts)
    else match truthyVal alt with
    | some _ => .err .attrErr
    | none =>
      match inv with
      | some c => Res.bind c.rollup fun s => .ok (s ++ "^")
      | none =>
        match z1 with
        | some c => Res.bind c.rollup fun s => .ok (s ++ "?")
        | none =>
          match om with
          | some c => Res.bind c.rollup fun s => .ok (s ++ "+")
          | none =>
            match zm with
            | some c => Res.bind c.rollup fun s => .ok (s ++ "*")
            | none => .ok ""

def PathR.rollupMany : List PathR → Res (List String)
  | [] => .ok []
  | p :: ps =>
    Res.bind p.rollup fun s =>
      Res.bind (PathR.rollupMany ps) fun ss => .ok (s :: ss)

end

/-! ## C5: path parse/rollup round-trip -/

def nP : RNode := .uri (exNS ++ "P")
def nPa : RNode := .uri (exNS ++ "a")
def nPb : RNode := .uri (exNS ++ "b")
def bL0 : RNode := .bnode "L0"
def bL1 : RNode := .bnode "L1"

/-- An alternative path `a | b`: `P sh:alternativePath (a b)`. -/
def gAlt : RGraph :=
  [⟨nP, shAlternativePath, bL0⟩,
   ⟨bL0, rdfFirst, nPa⟩, ⟨bL0, rdfRest, bL1⟩,
   ⟨bL1, rdfFirst, nPb⟩, ⟨bL1, rdfRest, rdfNil⟩]

/-- `rollup(parse(g, n))`, i.e. the round-trip of C5 (identity on the
parse failure cases, which do not arise here). -/
def roundtripRollup (g : RGraph) (n : RNode) : Res String :=
  match PathR.parse 99 g (some n) with
  | .ok (some p) => p.rollup
  | _ => .ok ""

/-- C5: the round-trip fails on the `alternativePath` operator.  `parse`
stores the raw list head `bL0` in the `alternativePath` attribute
(contradicting the attribute's declared `List["Path"]` type), so
`rollup` — which iterates that attribute and calls `.rollup()` on each
element — iterates the characters of an identifier string and raises
`AttributeError`, instead of producing the canonical `a|b`.  The
round-trip does hold for the remaining operators, as the sequence and
inverse instances show. -/
theorem c5_path_roundtrip_alternative_bug :
    PathR.parse 99 gAlt (some nP) =
      .ok (some (.mk nP none [] (some bL0) none none none none)) ∧
    roundtripRollup gAlt nP = .err .attrErr ∧
    roundtripRollup gAlt nP ≠ .ok (nodeStr nPa ++ "|" ++ nodeStr nPb) ∧
    roundtripRollup
      [⟨nP, rdfFirst, nPa⟩, ⟨nP, rdfRest, bL1⟩,
       ⟨bL1, rdfFirst, nPb⟩, ⟨bL1, rdfRest, rdfNil⟩] nP =
      .ok (nodeStr nPa ++ "/" ++ nodeStr nPb) ∧
    roundtripRollup [⟨nP, shInversePath, nPa⟩] nP = .ok (nodeStr nPa ++ "^") :=
  ⟨rfl, rfl, by decide, rfl, rfl⟩

/-! ## `shapgebra.py`: the shape-record model -/

mutual

inductive NodeShapeR where
  | mk (name : RNode) (target : Option NodeShapeTargetR) (hasClass : Option RNode)
      (matchesNode : Option NodeShapeR) (closed : Option RNode)
      (or_clauses : List OrClauseR) (not_clauses : List NotClauseR)
      (properties : List PropertyShapeR)

inductive NodeShapeTargetR where
  | targetClass (c : RNode)
  | targetNode (n : Option NodeShapeR)
  | targetObjectsOf (p : RNode)
  | targetSubjectsOf (p : RNode)

inductive OrClauseR where
  | mk (name : RNode) (node_shapes : List NodeShapeR)

inductive NotClauseR where
  | mk (name : RNode) (not_shape : NodeShapeR)

inductive PropertyShapeR where
  | mk (name : RNode) (path : PathR)
      (minCount maxCount hasValue hasClass hasDatatype hasNodeKind : Option RNode)
      (matchesNode : Option NodeShapeR)
      (qualifiedValueShape : Option QualifiedValueShapeR)

inductive QualifiedValueShapeR where
  | mk (name : RNode) (qualifiedMinCount qualifiedMaxCount : Option RNode)
      (qualifiedValueShape : Option NodeShapeR)

end

def PropertyShapeR.path : PropertyShapeR → PathR
  | .mk _ p _ _ _ _ _ _ _ _ => p

def PropertyShapeR.minCount : PropertyShapeR → Option RNode
  | .mk _ _ m _ _ _ _ _ _ _ => m

def PropertyShapeR.maxCount : PropertyShapeR → Option RNode
  | .mk _ _ _ m _ _ _ _ _ _ => m

def PropertyShapeR.hasValue : PropertyShapeR → Option RNode
  | .mk _ _ _ _ v _ _ _ _ _ => v

def PropertyShapeR.hasClass : PropertyShapeR → Option RNode
  | .mk _ _ _ _ _ c _ _ _ _ => c

def PropertyShapeR.hasDatatype : PropertyShapeR → Option RNode
  | .mk _ _ _ _ _ _ d _ _ _ => d

def PropertyShapeR.hasNodeKind : PropertyShapeR → Option RNode
  | .mk _ _ _ _ _ _ _ k _ _ => k

/-- The two `qvs.qualifiedMin/MaxCount = ...` assignments performed by
`PropertyShape.parse` after the nested parse. -/
def QualifiedValueShapeR.setCounts : QualifiedValueShapeR → Option RNode → Option RNode →
    QualifiedValueShapeR
  | .mk n _ _ q, mn, mx => .mk n mn mx q

/- The mutually recursive `parse` classmethods of `shapgebra.py`
(`NodeShape`, `NodeShapeTarget`, `OrClause`, `NotClause`,
`PropertyShape`, `QualifiedValueShape`), with the `drop_none` list
traversals.  Fuel decreases on every call; the source recurses
unboundedly on cyclic shape references (`spin`). -/
mutual

def NodeShapeR.parse : Nat → RGraph → Option RNode → Res (Option NodeShapeR)
  | _, _, none => .ok none
  | 0, _, some _ => .spin
  | fuel + 1, g, some node =>
    Res.bind (NodeShapeTargetR.parse fuel g node) fun target =>
    Res.bind (NodeShapeR.parse fuel g (valueOf g node shNode)) fun matchN =>
    Res.bind (OrClauseR.parseMany fuel g (objectsOf g node shOr)) fun ors =>
    Res.bind (NotClauseR.parseMany fuel g (objectsOf g node shNot)) fun nots =>
    Res.bind (PropertyShapeR.parseMany fuel g (objectsOf g node shProperty)) fun props =>
    .ok (some (.mk node target (valueOf g node shClass) matchN
      (valueOf g node shClosed) ors nots props))

def NodeShapeTargetR.parse : Nat → RGraph → RNode → Res (Option NodeShapeTargetR)
  | 0, _, _ => .spin
  | fuel + 1, g, node =>
    match truthyVal (valueOf g node shTargetClass) with
    | some c => .ok (some (.targetClass c))
    | none =>
    match truthyVal (valueOf g node shTargetNode) with
    | some tn =>
      Res.bind (NodeShapeR.parse fuel g (some tn)) fun n => .ok (some (.targetNode n))
    | none =>
    match truthyVal (valueOf g node shTargetObjectsOf) with
    | some p => .ok (some (.targetObjectsOf p))
    | none =>
    match truthyVal (valueOf g node shTargetSubjectsOf) with
    | some p => .ok (some (.targetSubjectsOf p))
    | none => .ok none

def OrClauseR.parse : Nat → RGraph → RNode → Res (Option OrClauseR)
  | 0, _, _ => .spin
  | fuel + 1, g, node =>
    Res.bind (NodeShapeR.parseManyDropNone fuel g (collectionItems g (g.length + 1) node))
      fun shapes => .ok (some (.mk node shapes))

def OrClauseR.parseMany : Nat → RGraph → List RNode → Res (List OrClauseR)
  | _, _, [] => .ok []
  | 0, _, _ :: _ => .spin
  | fuel + 1, g, x :: xs =>
    Res.bind (OrClauseR.parse fuel g x) fun ox =>
    Res.bind (OrClauseR.parseMany fuel g xs) fun oxs =>
    .ok (match ox with | none => oxs | some o => o :: oxs)

def NotClauseR.parse : Nat → RGraph → RNode → Res (Option NotClauseR)
  | 0, _, _ => .spin
  | fuel + 1, g, node =>
    Res.bind (NodeShapeR.parse fuel g (some node)) fun ns =>
    match ns with
    | none => .err .assertFail
    | some s => .ok (some (.mk node s))

def NotClauseR.parseMany : Nat → RGraph → List RNode → Res (List NotClauseR)
  | _, _, [] => .ok []
  | 0, _, _ :: _ => .spin
  | fuel + 1, g, x :: xs =>
    Res.bind (NotClauseR.parse fuel g x) fun ox =>
    Res.bind (NotClauseR.parseMany fuel g xs) fun oxs =>
    .ok (match ox with | none => oxs | some o => o :: oxs)

def NodeShapeR.parseManyDropNone : Nat → RGraph → List RNode → Res (List NodeShapeR)
  | _, _, [] => .ok []
  | 0, _, _ :: _ => .spin
  | fuel + 1, g, x :: xs =>
    Res.bind (NodeShapeR.parse fuel g (some x)) fun ox =>
    Res.bind (NodeShapeR.parseManyDropNone fuel g xs) fun oxs =>
    .ok (match ox with | none => oxs | some o => o :: oxs)

def PropertyShapeR.parse : Nat → RGraph → Option RNode → Res (Option PropertyShapeR)
  | _, _, none => .ok none
  | 0, _, some _ => .spin
  | fuel + 1, g, some node =>
    Res.bind (PathR.parse fuel g (valueOf g node shPath)) fun pathOpt =>
    match pathOpt with
    | none => .err .assertFail
    | some path =>
      Res.bind (NodeShapeR.parse fuel g (valueOf g node shNode)) fun matchN =>
      Res.bind (QualifiedValueShapeR.parse fuel g (valueOf g node shQualifiedValueShape))
        fun qvs0 =>
      .ok (some (.mk node path (valueOf g node shMinCount) (valueOf g node shMaxCount)
        (valueOf g node shHasValue) (valueOf g node shClass) (valueOf g node shDatatype)
        (valueOf g node shNodeKind) matchN
        (match qvs0 with
         | none => none
         | some q => some (q.setCounts (valueOf g node shQualifiedMinCount)
             (valueOf g node shQualifiedMaxCount)))))

def PropertyShapeR.parseMany : Nat → RGraph → List RNode → Res (List PropertyShapeR)
  | _, _, [] => .ok []
  | 0, _, _ :: _ => .spin
  | fuel + 1, g, x :: xs =>
    Res.bind (PropertyShapeR.parse fuel g (some x)) fun ox =>
    Res.bind (PropertyShapeR.parseMany fuel g xs) fun oxs =>
    .ok (match ox with | none => oxs | some o => o :: oxs)

def QualifiedValueShapeR.parse : Nat → RGraph → Option RNode → Res (Option QualifiedValueShapeR)
  | _, _, none => .ok none
  | 0, _, some _ => .spin
  | fuel + 1, g, some node =>
    Res.bind (NodeShapeR.parse fuel g (some node)) fun n =>
    .ok (some (.mk node none none n))

end

/-! ## C9: `PropertyShape.parse` failure behaviour -/

def nPS1 : RNode := .uri (exNS ++ "PS1")
def nN : RNode := .uri (exNS ++ "N")
def nQ2 : RNode := .uri (exNS ++ "Q2")

/-- A property shape `PS1` that HAS a path, but whose `sh:node` shape `N`
contains a nested property shape `Q2` without a path. -/
def gPS : RGraph :=
  [⟨nPS1, shPath, nPa⟩, ⟨nPS1, shNode, nN⟩, ⟨nN, shProperty, nQ2⟩]

/-- C9 counterexample: `PropertyShape.parse(gPS, PS1)` raises an
assertion failure although `PS1` has an `sh:path` value — the failure
comes from the recursive parse of the nested pathless property shape
`Q2` — refuting the claimed "if and only if". -/
theorem c9_property_shape_parse_cex :
    valueOf gPS nPS1 shPath = some nPa ∧
    PropertyShapeR.parse 99 gPS (some nPS1) = .err .assertFail :=
  ⟨rfl, rfl⟩

/-- C9 (amended): `PropertyShape.parse` fails with an assertion failure
**if** the node has no `sh:path` value; and when it returns a record,
the record's `path` field is the (non-null) parsed `Path` of the node's
`sh:path` value while every other missing constraint field is the null
result of the corresponding graph lookup, without raising.  (The
converse of the first part fails: assertion failures can also surface
from recursively parsed nested shapes — see the counterexample.) -/
theorem c9_property_shape_parse (g : RGraph) (node : RNode) (fuel : Nat) :
    (valueOf g node shPath = none →
      PropertyShapeR.parse (fuel + 1) g (some node) = .err .assertFail) ∧
    (∀ ps, PropertyShapeR.parse (fuel + 1) g (some node) = .ok (some ps) →
      PathR.parse fuel g (valueOf g node shPath) = .ok (some ps.path) ∧
      ps.minCount = valueOf g node shMinCount ∧
      ps.maxCount = valueOf g node shMaxCount ∧
      ps.hasValue = valueOf g node shHasValue ∧
      ps.hasClass = valueOf g node shClass ∧
      ps.hasDatatype = valueOf g node shDatatype ∧
      ps.hasNodeKind = valueOf g node shNodeKind) := by
  constructor
  · intro h
    have h1 : PathR.parse fuel g none = .ok none := by cases fuel <;> rfl
    simp only [PropertyShapeR.parse, h, h1, Res.bind]
  · intro ps h
    simp only [PropertyShapeR.parse] at h
    rcases Res.bind_eq_ok h with ⟨pathOpt, hX, h2⟩
    cases pathOpt with
    | none => cases h2
    | some path =>
      rcases Res.bind_eq_ok h2 with ⟨mN, _hM, h3⟩
      rcases Res.bind_eq_ok h3 with ⟨qvs0, _hQ, h4⟩
      injection h4 with h5
      injection h5 with h6
      subst h6
      exact ⟨hX, rfl, rfl, rfl, rfl, rfl, rfl⟩

def gOkPS : RGraph := [⟨nPS1, shPath, nPa⟩]

def gNoPath : RGraph := [⟨nPS1, shMinCount, .lit "1"⟩]

theorem c9_property_shape_parse_witness :
    (PropertyShapeR.parse 9 gNoPath (some nPS1) = .err .assertFail) ∧
    ((PropertyShapeR.parse 9 gOkPS (some nPS1) = .ok (some (.mk nPS1
        (.mk nPa (some nPa) [] none none none none none)
        none none none none none none none none))) ∧
      (PropertyShapeR.mk nPS1 (.mk nPa (some nPa) [] none none none none none)
        none none none none none none none none).minCount = valueOf gOkPS nPS1 shMinCount) :=
  ⟨(c9_property_shape_parse gNoPath nPS1 8).1 rfl,
   rfl,
   ((c9_property_shape_parse gOkPS nPS1 8).2 _ rfl).2.1⟩

/-! ## `shape2template.py`: `PathSet` and the synthesis context -/

def paramPfx : String := "param"
def autogenPfx : String := "autogen"
def shapeListPfx : String := "shape_list"
def propShapePfx : String := "prop_shape"

/-- The mutable synthesis state of a `Context`: the `templates`
defaultdict (an insertion-ordered association list; a missing key reads
as `[]`) and the `gensym` counter that determinizes `token_hex`. -/
structure St where
  templates : List (RNode × List String)
  counter : Nat
deriving DecidableEq

/-- `gensym(prefix)`: a fresh `MARK`-namespace identifier. -/
def gensym (pfx : String) (st : St) : RNode × St :=
  (.mark pfx st.counter, ⟨st.templates, st.counter + 1⟩)

/-- `self.templates[name]` (read).  The Python `defaultdict` also inserts
an empty entry on read; an empty entry contributes nothing to any later
read or to `to_dict` (its inner loop is empty), so reads are pure here. -/
def tmplGet (ts : List (RNode × List String)) (k : RNode) : List String :=
  match ts.find? (fun p => p.1 == k) with
  | some p => p.2
  | none => []

/-- `self.templates[name].append(template)` (`add_template`). -/
def tmplAdd : List (RNode × List String) → RNode → String → List (RNode × List String)
  | [], k, v => [(k, [v])]
  | (k0, v0) :: rest, k, v =>
    if k0 = k then (k0, v0 ++ [v]) :: rest else (k0, v0) :: tmplAdd rest k v

/-- `_add_to_list(list_, suffix)`. -/
def addToList (l : List String) (suffix : String) : List String :=
  l.map (fun item => item ++ suffix)

/-- `_cross_product(list_a, list_b)`. -/
def crossProd (la lb : List String) : List String :=
  la.flatMap (fun a => lb.map (fun b => a ++ b))

/-- The `PathSet` record: a sequence of steps, or a set of alternative
path sets (the set is determinized as a list; the code under
verification never populates `options` — `union` is never called). -/
inductive PathSet where
  | mk (sequence : List RNode) (options : List PathSet)

def PathSet.sequence : PathSet → List RNode
  | .mk s _ => s

def PathSet.options : PathSet → List PathSet
  | .mk _ o => o

/- `PathSet.then(path)` (with the element-wise map over `options`). -/
mutual

def PathSet.thenP : PathSet → RNode → PathSet
  | .mk sq [], path => .mk (sq ++ [path]) []
  | .mk _ (o :: os), path => .mk [] (PathSet.thenPList (o :: os) path)

def PathSet.thenPList : List PathSet → RNode → List PathSet
  | [], _ => []
  | p :: ps, path => PathSet.thenP p path :: PathSet.thenPList ps path

end

/-- `PathSet.union(other)`. -/
def PathSet.union (a b : PathSet) : PathSet := .mk [] [a, b]

/-- `PathSet.paths(start)`: render the step sequence as one triple-chain
string with fresh `autogen` placeholders and return `[(templates, last)]`.
The non-empty-`options` branch calls `p.paths()` without its required
argument and the caller immediately subscripts the resulting generator —
a `TypeError` (`err .attrErr`); it is unreachable from the synthesis code. -/
def PathSet.pathsFrom : PathSet → RNode → St → Res (List (List String × RNode) × St)
  | .mk sq opts, start, st =>
    match opts with
    | _ :: _ => .err .attrErr
    | [] =>
      let step := fun (acc : String × RNode × St) (p : RNode) =>
        let (temp, last, st0) := acc
        let temp2 := temp ++ ("<" ++ nodeStr last ++ "> ")
        let (lastNew, st1) := gensym autogenPfx st0
        (temp2 ++ ("<" ++ nodeStr p ++ "> <" ++ nodeStr lastNew ++ "> .\n"), lastNew, st1)
      let (temp, last, st2) := sq.foldl step ("", start, st)
      .ok ([([temp], last)], st2)

/- `Context._path_to_template(path, ps)` (and the sequential fold over a
decoded path list).  Recursion follows the source; fuel decreases on
every call (the source recurses unboundedly on cyclic path structure). -/
mutual

def pathToTemplate (g : RGraph) : Nat → RNode → PathSet → Res PathSet
  | 0, _, _ => .spin
  | fuel + 1, path, ps =>
    let sg := cbd g path
    if sg.length = 0 then .ok (ps.thenP path)
    else if hasPred sg path rdfFirst then
      pathToTemplateList g fuel (collectionItems sg (sg.length + 1) path) ps
    else
      match valueOf sg path shZeroOrMorePath with
      | some r => pathToTemplate g fuel r ps
      | none =>
      match valueOf sg path shOneOrMorePath with
      | some r => pathToTemplate g fuel r ps
      | none =>
      match valueOf sg path shZeroOrOnePath with
      | some r => pathToTemplate g fuel r ps
      | none =>
      match valueOf sg path shAlternativePath with
      | some r => pathToTemplateList g fuel (collectionItems sg (sg.length + 1) r) ps
      | none => .ok ps

def pathToTemplateList (g : RGraph) : Nat → List RNode → PathSet → Res PathSet
  | _, [], ps => .ok ps
  | 0, _ :: _, _ => .spin
  | fuel + 1, x :: xs, ps =>
    Res.bind (pathToTemplate g fuel x ps) fun ps2 => pathToTemplateList g fuel xs ps2

end

/- The mutually recursive synthesis walk:
`Context.generate_template` (with its property loop split out as
`genTemplateProps`), `Context._prop_shape_to_template`, and
`Context._handle_node_shape_list` (split into the loop over `or`-lists
and the loop over one list's items).  State (`templates` dict and gensym
counter) is threaded explicitly; `self.g` is the fixed parameter `g`;
`print` calls are side-effect-free for the result and dropped.  The dead
local `dependencies` list of `generate_template` (collected for
`sh:targetNode` but never returned or read) is dropped as well.  Fuel
decreases on every call; the source recurses unboundedly on cyclic
`or`-structures (`spin`). -/
mutual

def generateTemplate (g : RGraph) : Nat → St → RNode → Res (List String × St)
  | 0, _, _ => .spin
  | fuel + 1, st, shape =>
    let cg := cbd g shape
    let (param, st1) := gensym paramPfx st
    let tpOpt := [shTargetClass, shTargetNode, shClass].find? (fun p => hasPred cg shape p)
    let gp :=
      match tpOpt with
      | none => (([""] : List String), ([] : List RNode))
      | some tp =>
        -- `hasPred` guarantees the lookup succeeds; `f"<{None}>"` would
        -- render the unreachable branch literally as `<None>`.
        let ty := match valueOf cg shape tp with
          | some ty => nodeStr ty
          | none => "None"
        (addToList [""] ("<" ++ nodeStr param ++ "> rdf:type <" ++ ty ++ "> .\n"), [param])
    Res.bind
      (if hasPred cg shape shOr then
        Res.bind (handleNodeShapeList g fuel st1 shape (some param)) fun r =>
          .ok (r.1.foldl (fun gen ty => crossProd gen (tmplGet r.2.templates ty)) gp.1, r.2)
      else .ok (gp.1, st1)) fun r2 =>
    genTemplateProps g fuel r2.2 gp.2 r2.1 (objectsOf cg shape shProperty)

def genTemplateProps (g : RGraph) :
    Nat → St → List RNode → List String → List RNode → Res (List String × St)
  | _, st, _, gen, [] => .ok (gen, st)
  | 0, _, _, _, _ :: _ => .spin
  | fuel + 1, st, params, gen, propShape :: rest =>
    if propShape.isRes then
      match params with
      | [] => .err .indexOut
      | p0 :: _ =>
        Res.bind (propShapeToTemplate g fuel st p0 propShape) fun r =>
          genTemplateProps g fuel r.2.2 (params ++ r.2.1) (r.1.foldl addToList gen) rest
    else .err .assertFail

def propShapeToTemplate (g : RGraph) :
    Nat → St → RNode → RNode → Res (List String × List RNode × St)
  | 0, _, _, _ => .spin
  | fuel + 1, st, rootParam, propShape =>
    let pg := cbd g propShape
    match valueOf pg propShape shPath with
    | none =>
      -- A pathless property shape makes the source call `cbd(None)`,
      -- whose outcome is an rdflib accident; modelled as a failure.
      -- No verified claim exercises this branch.
      .err .attrErr
    | some path0 =>
      Res.bind (pathToTemplate g fuel path0 (.mk [] [])) fun pathPS =>
      Res.bind (pathPS.pathsFrom rootParam st) fun pr =>
      match pr.1 with
      | [] => .err .indexOut
      | (pathStrs, last) :: _ =>
        match pathStrs with
        | [] => .err .indexOut
        | pathStr :: _ =>
          let gen0 := addToList [""] pathStr
          let st2 := pr.2
          if hasPred pg propShape shClass then
            let ty := match valueOf pg propShape shClass with
              | some ty => nodeStr ty
              | none => "None"
            .ok (addToList gen0 ("<" ++ nodeStr last ++ "> rdf:type <" ++ ty ++ "> .\n"), [], st2)
          else if hasPred pg propShape shQualifiedValueShape then
            match valueOf pg propShape shQualifiedValueShape with
            | none => .err .attrErr
            | some qvs =>
              match valueOf pg qvs shClass with
              | some ty =>
                .ok (addToList gen0
                  ("<" ++ nodeStr last ++ "> rdf:type <" ++ nodeStr ty ++ "> .\n"), [], st2)
              | none =>
                match valueOf pg qvs shNode with
                | some ty =>
                  .ok (addToList gen0
                    ("<" ++ nodeStr last ++ "> rdf:type <" ++ nodeStr ty ++ "> .\n"), [], st2)
                | none =>
                  Res.bind (handleNodeShapeList g fuel st2 qvs none) fun r =>
                    .ok (r.1.foldl (fun gen ty => addToList gen
                      ("<" ++ nodeStr last ++ "> rdf:type <" ++ nodeStr ty ++ "> .\n")) gen0,
                      [], r.2)
          else .ok (gen0, [], st2)

def handleNodeShapeList (g : RGraph) : Nat → St → RNode → Option RNode → Res (List RNode × St)
  | 0, _, _, _ => .spin
  | fuel + 1, st, shape, root =>
    handleOrLists g fuel st root []
      ((objectsOf g shape shOr).map (fun o => collectionItems g (g.length + 1) o))

def handleOrLists (g : RGraph) :
    Nat → St → Option RNode → List RNode → List (List RNode) → Res (List RNode × St)
  | _, st, _, names, [] => .ok (names, st)
  | 0, _, _, _, _ :: _ => .spin
  | fuel + 1, st, root, names, items :: rest =>
    let (name, st1) := gensym shapeListPfx st
    Res.bind (handleItems g fuel st1 name root items) fun r =>
      handleOrLists g fuel r.2 r.1 (names ++ [name]) rest

def handleItems (g : RGraph) :
    Nat → St → RNode → Option RNode → List RNode → Res (Option RNode × St)
  | _, st, _, root, [] => .ok (root, st)
  | 0, _, _, _, _ :: _ => .spin
  | fuel + 1, st, name, root, item :: rest =>
    if g.contains ⟨item, rdfType, shNodeShape⟩ then
      Res.bind (generateTemplate g fuel st item) fun r =>
        handleItems g fuel
          ⟨r.1.foldl (fun ts t => tmplAdd ts name t) r.2.templates, r.2.counter⟩
          name root rest
    else if g.contains ⟨item, rdfType, shPropertyShape⟩ then
      let rs :=
        match root with
        | none =>
          let (r0, s0) := gensym propShapePfx st
          (r0, s0)
        | some r0 => (r0, st)
      Res.bind (propShapeToTemplate g fuel rs.2 rs.1 item) fun r =>
        handleItems g fuel
          ⟨r.1.foldl (fun ts t => tmplAdd ts name t) r.2.2.templates, r.2.2.counter⟩
          name (some rs.1) rest
    else handleItems g fuel st name root rest

end

/-! ## `Context.to_dict` -/

/- Python `str.replace` over character lists, with fuel equal to the
string length so the recursion is structural (each step consumes at
least one character).  Like the Python original it replaces
non-overlapping occurrences left to right; the empty-pattern case (which
Python treats specially) never arises here and performs no replacement. -/
def strReplaceAux : Nat → List Char → List Char → List Char → List Char
  | 0, s, _, _ => s
  | f + 1, s, pat, rep =>
    match s with
    | [] => []
    | c :: cs =>
      if pat ≠ [] ∧ pat.isPrefixOf s then rep ++ strReplaceAux f (s.drop pat.length) pat rep
      else c :: strReplaceAux f cs pat rep

def strReplace (s pat rep : String) : String :=
  ⟨strReplaceAux s.data.length s.data pat.data rep.data⟩

/-- `str.startswith`. -/
def strStarts (s pat : String) : Bool := pat.data.isPrefixOf s.data

def extractAnglesAux : List Char → Option (List Char) → List String
  | [], _ => []
  | c :: cs, none =>
    if c = '<' then extractAnglesAux cs (some []) else extractAnglesAux cs none
  | c :: cs, some acc =>
    if c = '>' then (⟨acc.reverse⟩ : String) :: extractAnglesAux cs none
    else extractAnglesAux cs (some (c :: acc))

/-- The `<…>`-delimited identifiers of a template body, in order. -/
def extractAngles (s : String) : List String := extractAnglesAux s.data none

/-- `to_dict`'s parameter extraction for one template:
`[str(node) for node in tg.all_nodes() if str(node).startswith(MARK)]`.
The template body is round-tripped through the external store
(spec §6: serialization is a collaborator): every node of the re-parsed
body is one of its angle-bracketed identifiers, and `all_nodes()` is a
set — determinized to first-occurrence order. -/
def templateParams (body : String) : List String :=
  dedupKeepFirst [] ((extractAngles body).filter (fun u => strStarts u MARKns))

/-- The per-template body of `to_dict`'s inner loop: each `MARK` node is
rewritten to a named `{slot}`, and the parameter names are the `MARK`
identifiers with the namespace stripped. -/
def toDictEntry (template : String) : String × List String :=
  let params := templateParams template
  let body := params.foldl (fun b p =>
    strReplace b ("<" ++ p ++ ">") ("\x7b" ++ strReplace p MARKns "" ++ "\x7d")) template
  (body, params.map (fun p => strReplace p MARKns ""))

/-- `res[name] = {...}` on an insertion-ordered mapping. -/
def dictSet {α : Type} : List (RNode × α) → RNode → α → List (RNode × α)
  | [], k, v => [(k, v)]
  | (k0, v0) :: rest, k, v =>
    if k0 = k then (k0, v) :: rest else (k0, v0) :: dictSet rest k v

/-- `Context.to_dict`: for every name, for every stored template variant,
compute the artifact and assign it to `res[name]`. -/
def toDict (ts : List (RNode × List String)) : List (RNode × (String × List String)) :=
  ts.foldl (fun res nt => nt.2.foldl (fun res t => dictSet res nt.1 (toDictEntry t)) res) []

/-! ## C1: the single-target / single-property scenario -/

def nZshape : RNode := .uri (exNS ++ "zshape")
def nZone : RNode := .uri (exNS ++ "Zone")
def nHasSensor : RNode := .uri (exNS ++ "hasSensor")
def nTempSensor : RNode := .uri (exNS ++ "TemperatureSensor")
def bPS : RNode := .bnode "ps0"

/-- A node shape targeting class `Zone` with exactly one property shape
of atomic path `hasSensor` and class `TemperatureSensor` — no
or-clauses, no other properties. -/
def gC1 : RGraph :=
  [⟨nZshape, rdfType, shNodeShape⟩,
   ⟨nZshape, shTargetClass, nZone⟩,
   ⟨nZshape, shProperty, bPS⟩,
   ⟨bPS, shPath, nHasSensor⟩,
   ⟨bPS, shClass, nTempSensor⟩]

def c1Body : String :=
  "<urn:___mark___#param_0> rdf:type <urn:ex#Zone> .\n" ++
  "<urn:___mark___#param_0> <urn:ex#hasSensor> <urn:___mark___#autogen_1> .\n" ++
  "<urn:___mark___#autogen_1> rdf:type <urn:ex#TemperatureSensor> .\n"

/-- C1: on the `Zone`/`hasSensor`/`TemperatureSensor` scenario,
`generate_template` produces exactly one template variant whose body is
exactly the three claimed statements — fresh placeholder `p1 = param_0`
typed `Zone`, `p1 hasSensor p2` with fresh `p2 = autogen_1`, and `p2`
typed `TemperatureSensor` — and the artifact's parameter list (the
`to_dict` extraction) is exactly `[param_0, autogen_1]`, two distinct
placeholders. -/
theorem c1_single_target_single_property :
    generateTemplate gC1 20 ⟨[], 0⟩ nZshape = .ok ([c1Body], ⟨[], 2⟩) ∧
    (toDictEntry c1Body).2 = [paramPfx ++ "_0", autogenPfx ++ "_1"] ∧
    paramPfx ++ "_0" ≠ autogenPfx ++ "_1" := by
  refine ⟨by decide, by decide, by decide⟩

/-! ## C8: `to_dict` keeps only the last variant of each name -/

def nm8 : RNode := .mark shapeListPfx 0
def t8A : String := "<urn:___mark___#param_1> rdf:type <urn:ex#CA> .\n"
def t8B : String := "<urn:___mark___#param_2> rdf:type <urn:ex#CB> .\n"

/-- C8: a context whose `templates` store two variants under one
OR-group name yields a `to_dict` with a single entry for that name —
the artifact of the LAST variant; the first variant's artifact is
dropped by the `res[name] = …` overwrite, refuting "every template
variant … appears in the returned mapping". -/
theorem c8_to_dict_last_wins :
    toDict [(nm8, [t8A, t8B])] =
      [(nm8, ("\x7bparam_2\x7d rdf:type <urn:ex#CB> .\n", [paramPfx ++ "_2"]))] ∧
    toDictEntry t8A =
      ("\x7bparam_1\x7d rdf:type <urn:ex#CA> .\n", [paramPfx ++ "_1"]) ∧
    (toDict [(nm8, [t8A, t8B])]).length = 1 := by
  refine ⟨by decide, by decide, by decide⟩

/-! ## C10: missing target makes `generate_template` hit `parameters[0]` -/

/-- C10: a shape with at least one `sh:property` edge (to a proper
resource) but none of `sh:targetClass` / `sh:targetNode` / `sh:class`
(and no `sh:or`, whose processing precedes the property loop) fails
with an out-of-bounds access: `parameters` is still empty when
`parameters[0]` is read to anchor the first property chain. -/
theorem c10_missing_target_index_error (g : RGraph) (st : St) (shape : RNode) (fuel : Nat)
    (hprop : objectsOf (cbd g shape) shape shProperty ≠ [])
    (hres : ∀ o ∈ objectsOf (cbd g shape) shape shProperty, o.isRes = true)
    (h1 : hasPred (cbd g shape) shape shTargetClass = false)
    (h2 : hasPred (cbd g shape) shape shTargetNode = false)
    (h3 : hasPred (cbd g shape) shape shClass = false)
    (h4 : hasPred (cbd g shape) shape shOr = false) :
    generateTemplate g (fuel + 2) st shape = .err .indexOut := by
  simp only [generateTemplate, h1, h2, h3, h4, List.find?]
  cases hcase : objectsOf (cbd g shape) shape shProperty with
  | nil => exact absurd hcase hprop
  | cons o rest =>
    have ho : o.isRes = true := hres o (by rw [hcase]; exact .head _)
    simp only [Res.bind, genTemplateProps, ho, if_pos rfl, Bool.false_eq_true,
      if_false, reduceCtorEq]
    rw [if_pos trivial]

def nS10 : RNode := .uri (exNS ++ "S10")

/-- A shape with one property shape and no target of any kind. -/
def gW10 : RGraph := [⟨nS10, shProperty, bPS⟩, ⟨bPS, shPath, nHasSensor⟩]

theorem c10_missing_target_index_error_witness :
    generateTemplate gW10 5 ⟨[], 0⟩ nS10 = .err .indexOut :=
  c10_missing_target_index_error gW10 ⟨[], 0⟩ nS10 3 (by decide)
    (by decide) (by decide) (by decide) (by decide) (by decide)

/-! ## C6: quantified path operators degenerate; inverse paths are dropped -/

def nW6 : RNode := .uri (exNS ++ "w6")
def nC6 : RNode := .uri (exNS ++ "c6")

/-- A property path wrapping the atomic predicate `c6` in `sh:inversePath`. -/
def gInv6 : RGraph := [⟨nW6, shInversePath, nC6⟩]

/-- C6 counterexample: `_path_to_template` on the inverse wrapper
returns the accumulator unchanged — the step is DROPPED (no triple is
emitted) — whereas processing the child `c6` alone emits the single hop;
the two results differ, refuting "inverse paths … emit the same
single-hop triple chain that would be emitted for p alone". -/
theorem c6_path_operator_cex :
    pathToTemplate gInv6 9 nW6 (.mk [] []) = .ok (.mk [] []) ∧
    pathToTemplate gInv6 9 nC6 (.mk [] []) = .ok (.mk [nC6] []) ∧
    (PathSet.mk [] []) ≠ (PathSet.mk [nC6] []) :=
  ⟨rfl, rfl, by simp⟩

/-- C6 (amended): `_path_to_template` structurally resolves the three
quantified operators — the wrapper produces exactly what the wrapped
child produces — but an inverse path is NOT degenerated to a single hop:
no branch matches `sh:inversePath`, so the wrapper falls through and
contributes nothing (the accumulated `PathSet` is returned unchanged). -/
theorem c6_path_operator_resolution (g : RGraph) (fuel : Nat) (w c : RNode) (ps : PathSet)
    (hf : hasPred (cbd g w) w rdfFirst = false)
    (h0 : (cbd g w).length ≠ 0) :
    (valueOf (cbd g w) w shZeroOrMorePath = some c →
      pathToTemplate g (fuel + 1) w ps = pathToTemplate g fuel c ps) ∧
    (valueOf (cbd g w) w shZeroOrMorePath = none →
      valueOf (cbd g w) w shOneOrMorePath = some c →
      pathToTemplate g (fuel + 1) w ps = pathToTemplate g fuel c ps) ∧
    (valueOf (cbd g w) w shZeroOrMorePath = none →
      valueOf (cbd g w) w shOneOrMorePath = none →
      valueOf (cbd g w) w shZeroOrOnePath = some c →
      pathToTemplate g (fuel + 1) w ps = pathToTemplate g fuel c ps) ∧
    (valueOf (cbd g w) w shInversePath = some c →
      valueOf (cbd g w) w shZeroOrMorePath = none →
      valueOf (cbd g w) w shOneOrMorePath = none →
      valueOf (cbd g w) w shZeroOrOnePath = none →
      valueOf (cbd g w) w shAlternativePath = none →
      pathToTemplate g (fuel + 1) w ps = .ok ps) := by
  refine ⟨?_, ?_, ?_, ?_⟩
  · intro hzm
    simp only [pathToTemplate, if_neg h0, hf, Bool.false_eq_true, if_false, hzm]
  · intro hzm hom
    simp only [pathToTemplate, if_neg h0, hf, Bool.false_eq_true, if_false, hzm, hom]
  · intro hzm hom hz1
    simp only [pathToTemplate, if_neg h0, hf, Bool.false_eq_true, if_false, hzm, hom, hz1]
  · intro _hinv hzm hom hz1 halt
    simp only [pathToTemplate, if_neg h0, hf, Bool.false_eq_true, if_false,
      hzm, hom, hz1, halt]

/-- One wrapper node per operator, all around the atomic child `c6`. -/
def nW1 : RNode := .uri (exNS ++ "w1")
def nW2 : RNode := .uri (exNS ++ "w2")
def nW3 : RNode := .uri (exNS ++ "w3")

def gQ6 : RGraph :=
  [⟨nW1, shZeroOrMorePath, nC6⟩, ⟨nW2, shOneOrMorePath, nC6⟩,
   ⟨nW3, shZeroOrOnePath, nC6⟩, ⟨nW6, shInversePath, nC6⟩]

theorem c6_path_operator_resolution_witness :
    (pathToTemplate gQ6 6 nW1 (.mk [] []) = pathToTemplate gQ6 5 nC6 (.mk [] [])) ∧
    (pathToTemplate gQ6 6 nW2 (.mk [] []) = pathToTemplate gQ6 5 nC6 (.mk [] [])) ∧
    (pathToTemplate gQ6 6 nW3 (.mk [] []) = pathToTemplate gQ6 5 nC6 (.mk [] [])) ∧
    (pathToTemplate gQ6 6 nW6 (.mk [] []) = .ok (.mk [] [])) :=
  ⟨(c6_path_operator_resolution gQ6 5 nW1 nC6 (.mk [] []) (by decide) (by decide)).1
      (by decide),
   (c6_path_operator_resolution gQ6 5 nW2 nC6 (.mk [] []) (by decide) (by decide)).2.1
      (by decide) (by decide),
   (c6_path_operator_resolution gQ6 5 nW3 nC6 (.mk [] []) (by decide) (by decide)).2.2.1
      (by decide) (by decide) (by decide),
   (c6_path_operator_resolution gQ6 5 nW6 nC6 (.mk [] []) (by decide) (by decide)).2.2.2
      (by decide) (by decide) (by decide) (by decide) (by decide)⟩

/-! ## C2: OR cross-product cardinality -/

theorem tmplGet_tmplAdd_same (ts : List (RNode × List String)) (k : RNode) (v : String) :
    tmplGet (tmplAdd ts k v) k = tmplGet ts k ++ [v] := by
  induction ts with
  | nil => simp [tmplGet, tmplAdd, List.find?]
  | cons h rest ih =>
    obtain ⟨k0, v0⟩ := h
    by_cases hk : k0 = k
    · subst hk
      simp [tmplGet, tmplAdd, List.find?]
    · have hb : (k0 == k) = false := beq_eq_false_iff_ne.mpr hk
      simp only [tmplAdd, if_neg hk, tmplGet, List.find?, hb]
      exact ih

theorem tmplGet_tmplAdd_other (ts : List (RNode × List String)) (k k2 : RNode) (v : String)
    (hne : k2 ≠ k) : tmplGet (tmplAdd ts k v) k2 = tmplGet ts k2 := by
  have hb0 : (k == k2) = false := beq_eq_false_iff_ne.mpr (Ne.symm hne)
  induction ts with
  | nil => simp [tmplGet, tmplAdd, List.find?, hb0]
  | cons h rest ih =>
    obtain ⟨k0, v0⟩ := h
    by_cases hk : k0 = k
    · subst hk
      simp only [tmplAdd, if_pos rfl, tmplGet, List.find?, hb0]
    · simp only [tmplAdd, if_neg hk, tmplGet, List.find?]
      cases hcase : (k0 == k2) with
      | true => rfl
      | false => exact ih

theorem tmplGet_foldAdd_same (l : List String) (ts : List (RNode × List String)) (k : RNode) :
    tmplGet (l.foldl (fun ts t => tmplAdd ts k t) ts) k = tmplGet ts k ++ l := by
  induction l generalizing ts with
  | nil => simp
  | cons x xs ih =>
    simp only [List.foldl_cons]
    rw [ih, tmplGet_tmplAdd_same, List.append_assoc]
    rfl

theorem tmplGet_foldAdd_other (l : List String) (ts : List (RNode × List String))
    (k k2 : RNode) (hne : k2 ≠ k) :
    tmplGet (l.foldl (fun ts t => tmplAdd ts k t) ts) k2 = tmplGet ts k2 := by
  induction l generalizing ts with
  | nil => rfl
  | cons x xs ih =>
    simp only [List.foldl_cons]
    rw [ih, tmplGet_tmplAdd_other _ _ _ _ hne]

theorem crossProd_length (la lb : List String) :
    (crossProd la lb).length = la.length * lb.length := by
  induction la with
  | nil => simp [crossProd]
  | cons a rest ih =>
    simp only [crossProd, List.flatMap_cons, List.length_append, List.length_map,
      List.length_cons]
    simp only [crossProd] at ih
    rw [ih]
    ring

def nodeShapeTyped (g : RGraph) (item : RNode) : Prop :=
  (⟨item, rdfType, shNodeShape⟩ : Triple) ∈ g

/-- "The alternative contributes exactly one template": synthesizing
`item` from any state yields exactly one template body, leaves the
`templates` dict unchanged and advances the gensym counter by one
(e.g. any alternative with a target and no or-clauses or properties). -/
def yieldsOneTemplate (g : RGraph) (item : RNode) : Prop :=
  ∀ (st : St) (f : Nat), ∃ t : String,
    generateTemplate g (f + 1) st item = .ok ([t], ⟨st.templates, st.counter + 1⟩)

theorem handleItems_simple (g : RGraph) (name : RNode) (root : Option RNode) :
    ∀ (items : List RNode) (fuel : Nat) (st : St),
      (∀ item ∈ items, nodeShapeTyped g item ∧ yieldsOneTemplate g item) →
      items.length + 1 ≤ fuel →
      ∃ st' : St,
        handleItems g fuel st name root items = .ok (root, st') ∧
        (tmplGet st'.templates name).length
          = (tmplGet st.templates name).length + items.length ∧
        (∀ k, k ≠ name → tmplGet st'.templates k = tmplGet st.templates k) ∧
        st.counter ≤ st'.counter := by
  intro items
  induction items with
  | nil =>
    intro fuel st _ _
    exact ⟨st, by cases fuel <;> rfl, by simp, fun _ _ => rfl, le_refl _⟩
  | cons item rest ih =>
    intro fuel st hall hfuel
    obtain ⟨f, rfl⟩ : ∃ f, fuel = f + 1 := ⟨fuel - 1, by omega⟩
    obtain ⟨f2, rfl⟩ : ∃ f2, f = f2 + 1 := ⟨f - 1, by simp at hfuel; omega⟩
    obtain ⟨hty, hyo⟩ := hall item (.head _)
    obtain ⟨t, hgen⟩ := hyo st f2
    have hcont : g.contains (⟨item, rdfType, shNodeShape⟩ : Triple) = true :=
      (contains_iff_mem _ _).mpr hty
    have hstep : handleItems g (f2 + 1 + 1) st name root (item :: rest) =
        handleItems g (f2 + 1)
          ⟨tmplAdd st.templates name t, st.counter + 1⟩ name root rest := by
      simp only [handleItems, hcont, if_pos rfl, hgen, Res.bind, List.foldl]
      rw [if_pos trivial]
    obtain ⟨st', hrun, hlen, hoth, hcnt⟩ :=
      ih (f2 + 1) ⟨tmplAdd st.templates name t, st.counter + 1⟩
        (fun x hx => hall x (.tail _ hx)) (by simp at hfuel ⊢; omega)
    refine ⟨st', hstep.trans hrun, ?_, ?_, ?_⟩
    · rw [hlen]
      have : tmplGet (tmplAdd st.templates name t) name = tmplGet st.templates name ++ [t] :=
        tmplGet_tmplAdd_same _ _ _
      simp only [St.templates] at *
      rw [this]
      simp [List.length_append]
      omega
    · intro k hk
      rw [hoth k hk]
      exact tmplGet_tmplAdd_other _ _ _ _ hk
    · exact le_trans (Nat.le_succ _) hcnt

theorem handleNodeShapeList_two (g : RGraph) (shape : RNode) (root : Option RNode)
    (items1 items2 : List RNode) (st : St) (fuel : Nat)
    (horl : (objectsOf g shape shOr).map (fun o => collectionItems g (g.length + 1) o)
      = [items1, items2])
    (halts : ∀ item ∈ items1 ++ items2, nodeShapeTyped g item ∧ yieldsOneTemplate g item)
    (hfresh : ∀ (pfx : String) (k : Nat), st.counter ≤ k →
      tmplGet st.templates (.mark pfx k) = [])
    (hfuel : items1.length + items2.length + 4 ≤ fuel) :
    ∃ (c1 c2 : Nat) (st' : St),
      handleNodeShapeList g fuel st shape root =
        .ok ([.mark shapeListPfx c1, .mark shapeListPfx c2], st') ∧
      (tmplGet st'.templates (.mark shapeListPfx c1)).length = items1.length ∧
      (tmplGet st'.templates (.mark shapeListPfx c2)).length = items2.length := by
  obtain ⟨f, rfl⟩ : ∃ f, fuel = f + 1 := ⟨fuel - 1, by omega⟩
  obtain ⟨f1, rfl⟩ : ∃ f1, f = f1 + 1 := ⟨f - 1, by omega⟩
  -- first or-list
  obtain ⟨st2, hrun1, hlen1, hoth1, hcnt1⟩ :=
    handleItems_simple g (.mark shapeListPfx st.counter) root items1 f1
      ⟨st.templates, st.counter + 1⟩
      (fun x hx => halts x (List.mem_append_left _ hx)) (by omega)
  obtain ⟨f2, rfl⟩ : ∃ f2, f1 = f2 + 1 := ⟨f1 - 1, by omega⟩
  -- second or-list
  obtain ⟨st4, hrun2, hlen2, hoth2, hcnt2⟩ :=
    handleItems_simple g (.mark shapeListPfx st2.counter) root items2 f2
      ⟨st2.templates, st2.counter + 1⟩
      (fun x hx => halts x (List.mem_append_right _ hx)) (by omega)
  have hc12 : st.counter < st2.counter := by
    have : (⟨st.templates, st.counter + 1⟩ : St).counter ≤ st2.counter := hcnt1
    simp only [St.counter] at this
    omega
  have hname : (RNode.mark shapeListPfx st.counter) ≠ (.mark shapeListPfx st2.counter) := by
    intro h
    injection h with h1 h2
    omega
  refine ⟨st.counter, st2.counter, st4, ?_, ?_, ?_⟩
  · have hstep : handleNodeShapeList g (f2 + 1 + 1 + 1) st shape root =
        handleOrLists g (f2 + 1 + 1) st root [] [items1, items2] := by
      simp only [handleNodeShapeList, horl]
    rw [hstep]
    have hstep1 : handleOrLists g (f2 + 1 + 1) st root [] [items1, items2] =
        Res.bind (handleItems g (f2 + 1) ⟨st.templates, st.counter + 1⟩
            (.mark shapeListPfx st.counter) root items1) fun r =>
          handleOrLists g (f2 + 1) r.2 r.1 [.mark shapeListPfx st.counter] [items2] := by
      simp only [handleOrLists, gensym, List.nil_append]
    rw [hstep1, hrun1]
    have hstep2 : Res.bind (Res.ok (root, st2)) (fun r =>
          handleOrLists g (f2 + 1) r.2 r.1 [RNode.mark shapeListPfx st.counter] [items2]) =
        Res.bind (handleItems g f2 ⟨st2.templates, st2.counter + 1⟩
            (.mark shapeListPfx st2.counter) root items2) fun r =>
          handleOrLists g f2 r.2 r.1
            [RNode.mark shapeListPfx st.counter, .mark shapeListPfx st2.counter] [] := by
      simp only [Res.bind, handleOrLists, gensym, List.cons_append, List.nil_append]
    rw [hstep2, hrun2]
    simp only [Res.bind]
    cases f2 <;> rfl
  · rw [hoth2 _ hname]
    simp only [St.templates]
    rw [hlen1]
    simp only [St.templates]
    rw [hfresh shapeListPfx st.counter (le_refl _)]
    simp
  · rw [hlen2]
    simp only [St.templates]
    rw [hoth1 _ hname.symm]
    simp only [St.templates]
    rw [hfresh shapeListPfx st2.counter (Nat.le_of_lt hc12)]
    simp

/-- C2: a node shape carrying exactly two OR-clauses whose alternative
lists have `m` and `n` items, each alternative contributing exactly one
template, with the other branching constructs held fixed (a first-match
`sh:targetClass` target, no properties), yields exactly `m * n` template
variants: the cross product of the two OR-groups' registered template
lists. -/
theorem c2_or_cross_product (g : RGraph) (st : St) (shape : RNode) (fuel m n : Nat)
    (items1 items2 : List RNode)
    (hor : hasPred (cbd g shape) shape shOr = true)
    (htp : [shTargetClass, shTargetNode, shClass].find?
        (fun p => hasPred (cbd g shape) shape p) = some shTargetClass)
    (horl : (objectsOf g shape shOr).map (fun o => collectionItems g (g.length + 1) o)
      = [items1, items2])
    (hm : items1.length = m) (hn : items2.length = n)
    (halts : ∀ item ∈ items1 ++ items2, nodeShapeTyped g item ∧ yieldsOneTemplate g item)
    (hfresh : ∀ (pfx : String) (k : Nat), st.counter ≤ k →
      tmplGet st.templates (.mark pfx k) = [])
    (hprops : objectsOf (cbd g shape) shape shProperty = [])
    (hfuel : m + n + 6 ≤ fuel) :
    ∃ (l : List String) (st' : St),
      generateTemplate g fuel st shape = .ok (l, st') ∧ l.length = m * n := by
  obtain ⟨f, rfl⟩ : ∃ f, fuel = f + 1 := ⟨fuel - 1, by omega⟩
  obtain ⟨c1, c2, st4, hh, hl1, hl2⟩ :=
    handleNodeShapeList_two g shape (some (.mark paramPfx st.counter)) items1 items2
      ⟨st.templates, st.counter + 1⟩ f horl halts
      (fun pfx k hk => hfresh pfx k (by simp only [St.counter] at hk; omega))
      (by omega)
  simp only [generateTemplate, gensym, htp, hor, hh, Res.bind, List.foldl, hprops,
    genTemplateProps, if_pos rfl]
  refine ⟨_, st4, rfl, ?_⟩
  rw [crossProd_length, crossProd_length]
  simp only [addToList, List.length_map, List.length_cons, List.length_nil]
  rw [hl1, hl2, hm, hn]
  ring

/-- A class-targeted node shape with no or-clauses and no properties
always contributes exactly one template (the single type statement). -/
theorem yieldsOne_of_classTarget (g : RGraph) (item : RNode)
    (htp : [shTargetClass, shTargetNode, shClass].find?
        (fun p => hasPred (cbd g item) item p) = some shTargetClass)
    (hor : hasPred (cbd g item) item shOr = false)
    (hprops : objectsOf (cbd g item) item shProperty = []) :
    yieldsOneTemplate g item := by
  intro st f
  refine ⟨?_, ?_⟩
  · exact "" ++ ("<" ++ nodeStr (.mark paramPfx st.counter) ++ "> rdf:type <" ++
      (match valueOf (cbd g item) item shTargetClass with
       | some ty => nodeStr ty
       | none => "None") ++ "> .\n")
  · simp only [generateTemplate, gensym, htp, hor, Bool.false_eq_true, if_false,
      Res.bind, hprops, genTemplateProps, addToList, List.map]

def nS2 : RNode := .uri (exNS ++ "S2")
def nCS : RNode := .uri (exNS ++ "CS")
def nA1 : RNode := .uri (exNS ++ "A1")
def nA2 : RNode := .uri (exNS ++ "A2")
def nB1 : RNode := .uri (exNS ++ "B1")
def nB2 : RNode := .uri (exNS ++ "B2")
def nCA : RNode := .uri (exNS ++ "CA")
def nCB : RNode := .uri (exNS ++ "CB")
def nL10 : RNode := .uri (exNS ++ "l10")
def nL11 : RNode := .uri (exNS ++ "l11")
def nL20 : RNode := .uri (exNS ++ "l20")
def nL21 : RNode := .uri (exNS ++ "l21")

/-- A node shape with a class target and two OR-clauses: `(A1 A2)` and
`(B1 B2)`, each alternative a class-targeted node shape. -/
def gW2 : RGraph :=
  [⟨nS2, rdfType, shNodeShape⟩, ⟨nS2, shTargetClass, nCS⟩,
   ⟨nS2, shOr, nL10⟩, ⟨nS2, shOr, nL20⟩,
   ⟨nL10, rdfFirst, nA1⟩, ⟨nL10, rdfRest, nL11⟩,
   ⟨nL11, rdfFirst, nA2⟩, ⟨nL11, rdfRest, rdfNil⟩,
   ⟨nL20, rdfFirst, nB1⟩, ⟨nL20, rdfRest, nL21⟩,
   ⟨nL21, rdfFirst, nB2⟩, ⟨nL21, rdfRest, rdfNil⟩,
   ⟨nA1, rdfType, shNodeShape⟩, ⟨nA1, shTargetClass, nCA⟩,
   ⟨nA2, rdfType, shNodeShape⟩, ⟨nA2, shTargetClass, nCA⟩,
   ⟨nB1, rdfType, shNodeShape⟩, ⟨nB1, shTargetClass, nCB⟩,
   ⟨nB2, rdfType, shNodeShape⟩, ⟨nB2, shTargetClass, nCB⟩]

theorem c2_or_cross_product_witness :
    ∃ (l : List String) (st' : St),
      generateTemplate gW2 31 ⟨[], 0⟩ nS2 = .ok (l, st') ∧ l.length = 2 * 2 :=
  c2_or_cross_product gW2 ⟨[], 0⟩ nS2 31 2 2 [nA1, nA2] [nB1, nB2]
    (by decide) (by decide) (by decide) (by decide) (by decide)
    (fun item h => by
      simp only [List.cons_append, List.nil_append, List.mem_cons,
        List.not_mem_nil, or_false] at h
      rcases h with rfl | rfl | rfl | rfl <;>
        exact ⟨by unfold nodeShapeTyped; decide,
          yieldsOne_of_classTarget _ _ (by decide) (by decide) (by decide)⟩)
    (fun _ _ _ => rfl)
    (by decide) (by omega)
